import Mathlib

/-!
Verification development for the bandwidth-monitor repository.

The Go source is shallowly embedded: pure computations become Lean
functions, the shared metrics store becomes an explicit state machine,
and Go machine integers are modelled as follows.

Machine integers: Go `uint64` is modelled as `Nat` together with explicit
reduction modulo `2 ^ 64` exactly at the operations the source performs on
`uint64` values (`+`, `*`); comparisons and division never overflow and
are plain `Nat` operations.

Instants and durations: all instants produced by the source are whole
Unix seconds (`time.Unix(ts, 0)` and `time.Date(..., 0, time.UTC)`), so
instants are modelled as `Int` seconds.  Go's `time.Time.Sub` returns
nanoseconds saturating at plus or minus `2 ^ 63 - 1` ns (about 9.2e9 s);
every threshold the source compares an age against is at most 86400 s,
far below the saturation bound, so plain `Int` subtraction of the second
counts decides every such comparison exactly as the Go code does.
-/

/-- Go uint64 values, represented as natural numbers below `2 ^ 64`. -/
abbrev U64 := Nat

/-- The uint64 modulus. -/
def u64Mod : Nat := 2 ^ 64

/-- Go uint64 addition (wraps modulo `2 ^ 64`). -/
def u64add (a b : U64) : U64 := (a + b) % u64Mod

/-- Go uint64 multiplication (wraps modulo `2 ^ 64`). -/
def u64mul (a b : U64) : U64 := (a * b) % u64Mod

namespace TimeModel

/-- Number of days from 1970-01-01 to the civil date `(y, m, d)` in the
proleptic Gregorian calendar.  This models Go's `time.Date` /
`time.Time.Unix` composition for in-range field values (the standard
days-from-civil computation). -/
def daysFromCivil (y m d : Int) : Int :=
  let yy := if m ≤ 2 then y - 1 else y
  let era := Int.fdiv yy 400
  let yoe := yy - era * 400
  let mp := if 2 < m then m - 3 else m + 9
  let doy := Int.fdiv (153 * mp + 2) 5 + d - 1
  let doe := yoe * 365 + Int.fdiv yoe 4 - Int.fdiv yoe 100 + doy
  era * 146097 + doe - 719468

/-- Unix seconds of the UTC instant `time.Date(y, m, d, h, mi, 0, 0, time.UTC)`
for in-range field values. -/
def epochSecs (y m d h mi : Int) : Int :=
  daysFromCivil y m d * 86400 + h * 3600 + mi * 60

end TimeModel

namespace Parser

/-- Abstract JSON values, the input domain of `VnStatTime.UnmarshalJSON`.
Numbers are restricted to integers: every admissible vnStat dump carries
integral `id` fields, and a non-integral number fails the `int64` decode
in Go exactly as a string does. -/
inductive JValue where
  | num (n : Int)
  | str (s : String)
  | boolean (b : Bool)
  | null
  | arr (xs : List JValue)
  | obj (fields : List (String × JValue))

/-- Models the Go helper `getInt` inside `VnStatTime.UnmarshalJSON`:
look a key up in the decoded object and return its numeric value, or 0
when the key is absent or not a number. -/
def getInt (fields : List (String × JValue)) (key : String) : Int :=
  match fields.lookup key with
  | some (JValue.num n) => n
  | _ => 0

/-- Models the nested-object extraction in `VnStatTime.UnmarshalJSON`:
when the value under `key` is itself an object, return its fields. -/
def getObj (fields : List (String × JValue)) (key : String) :
    Option (List (String × JValue)) :=
  match fields.lookup key with
  | some (JValue.obj inner) => some inner
  | _ => none

/-- Shallow embedding of `VnStatTime.UnmarshalJSON` (monitor.go).  The Go
code first tries to decode the raw bytes as an `int64` Unix timestamp;
failing that it decodes a generic object and reconstructs a UTC instant
from `year`, `month`, `day`, `hour`, `minute` fields, consulting nested
`date` and `time` objects for fields still zero, and defaulting `day`
and `month` to 1 when zero.  Returns the instant in Unix seconds, or
`none` when both decodes fail. -/
def parseVnStatTime (j : JValue) : Option Int :=
  match j with
  | JValue.num n => some n
  | JValue.obj fields =>
    let year := getInt fields "year"
    let month := getInt fields "month"
    let day := getInt fields "day"
    let hour := getInt fields "hour"
    let minute := getInt fields "minute"
    let (year, month, day) :=
      match getObj fields "date" with
      | some dateObj =>
        (if year = 0 then getInt dateObj "year" else year,
         if month = 0 then getInt dateObj "month" else month,
         if day = 0 then getInt dateObj "day" else day)
      | none => (year, month, day)
    let (hour, minute) :=
      match getObj fields "time" with
      | some timeObj =>
        (if hour = 0 then getInt timeObj "hour" else hour,
         if minute = 0 then getInt timeObj "minute" else minute)
      | none => (hour, minute)
    let day := if day = 0 then 1 else day
    let month := if month = 0 then 1 else month
    some (TimeModel.epochSecs year month day hour minute)
  | _ => none

/-- A parsed traffic bucket: UTC instant (Unix seconds) plus rx/tx volumes. -/
structure ParsedBucket where
  instant : Int
  Rx : U64
  Tx : U64
deriving DecidableEq

/-- Parse one raw bucket: the `id` field through `parseVnStatTime`, the
volumes carried through unchanged.  A failing `id` fails the bucket, as
`json.Unmarshal` fails the whole document. -/
def parseBucket (id : JValue) (rx tx : U64) : Option ParsedBucket :=
  (parseVnStatTime id).map (fun t => { instant := t, Rx := rx, Tx := tx })

/-- Parse a whole bucket series; any failing element fails the series,
as `json.Unmarshal` fails the whole document. -/
def parseSeries (raw : List (JValue × U64 × U64)) : Option (List ParsedBucket) :=
  raw.mapM (fun b => parseBucket b.1 b.2.1 b.2.2)

/-- Description of one bucket in the legacy-object dialect: the id field
values plus the volumes. -/
structure LegacyDesc where
  year : Int
  month : Int
  day : Int
  hour : Int
  minute : Int
  rx : U64
  tx : U64

/-- The raw legacy-dialect encoding of a bucket: a nested object id.
A bucket id with a missing finer field is admitted by taking that field
as 0, which the decoder treats identically to an absent key. -/
def legacyRaw (b : LegacyDesc) : JValue × U64 × U64 :=
  (JValue.obj [("year", JValue.num b.year), ("month", JValue.num b.month),
    ("day", JValue.num b.day), ("hour", JValue.num b.hour),
    ("minute", JValue.num b.minute)], b.rx, b.tx)

/-- The semantically equivalent modern-dialect encoding of the same
bucket: the id is the Unix timestamp of the instant the legacy object
denotes. -/
def modernRaw (b : LegacyDesc) : JValue × U64 × U64 :=
  (JValue.num (TimeModel.epochSecs b.year b.month b.day b.hour b.minute),
    b.rx, b.tx)

/-- A legacy bucket description is admissible when its date fields denote
a real calendar date (months and days start at 1, so the decoder's
zero-defaulting never fires). -/
def Admissible (b : LegacyDesc) : Prop := 1 ≤ b.month ∧ 1 ≤ b.day

instance (b : LegacyDesc) : Decidable (Admissible b) :=
  inferInstanceAs (Decidable (1 ≤ b.month ∧ 1 ≤ b.day))

end Parser

namespace Deriver

/-- Modern-dialect traffic bucket (monitor.go, `TrafficBucket`).  The
decoded `id`, `date` and `time` fields are never read by any code path,
so only `Timestamp`, `Rx` and `Tx` are carried. -/
structure TrafficBucket where
  Timestamp : Int
  Rx : U64
  Tx : U64
deriving DecidableEq

/-- One interface of a parsed vnStat dump, restricted to the series
`processVnStatData` reads (`Month` and `Top` are decoded but unread). -/
structure Interface where
  Name : String := ""
  FiveMinute : List TrafficBucket := []
  Hour : List TrafficBucket := []
  Day : List TrafficBucket := []

/-- PeakEvent (monitor.go): a high-traffic hour. -/
structure PeakEvent where
  Time : Int
  Rx : U64
  Tx : U64
deriving DecidableEq

/-- ServerMetrics (monitor.go): per-host derived metrics. -/
structure ServerMetrics where
  Name : String
  IP : String := ""
  Online : Bool
  Rx : U64 := 0
  Tx : U64 := 0
  TotalRx : U64 := 0
  TotalTx : U64 := 0
  AvgRx12h : U64 := 0
  AvgTx12h : U64 := 0
  AvgRx24h : U64 := 0
  AvgTx24h : U64 := 0
  PeakRx : U64 := 0
  PeakTx : U64 := 0
  PeakEvents : List PeakEvent := []
  UpdatedAt : Int := 0
  Error : String := ""
deriving DecidableEq

/-- Insertion step for ascending sort by `Timestamp`. -/
def insertByTs (b : TrafficBucket) : List TrafficBucket → List TrafficBucket
  | [] => [b]
  | c :: cs => if b.Timestamp ≤ c.Timestamp then b :: c :: cs else c :: insertByTs b cs

/-- Model of the `sort.Slice` call on the `Day` series (ascending by
`Timestamp`).  Go's `sort.Slice` guarantees only a sorted permutation;
insertion sort produces one, and every theorem below that depends on the
sort carries a distinct-timestamps hypothesis under which the sorted
permutation is unique. -/
def sortByTs : List TrafficBucket → List TrafficBucket
  | [] => []
  | b :: bs => insertByTs b (sortByTs bs)

/-- Insertion step for descending sort by `Timestamp`. -/
def insertByTsDesc (b : TrafficBucket) : List TrafficBucket → List TrafficBucket
  | [] => [b]
  | c :: cs => if c.Timestamp ≤ b.Timestamp then b :: c :: cs else c :: insertByTsDesc b cs

/-- Model of the `sort.Slice` call on the `FiveMinute` series
(descending by `Timestamp`, newest first). -/
def sortByTsDesc : List TrafficBucket → List TrafficBucket
  | [] => []
  | b :: bs => insertByTsDesc b (sortByTsDesc bs)

/-- The `hourTraffic` record built inside `processVnStatData`. -/
structure hourTraffic where
  t : Int
  rx : U64
  tx : U64
  total : U64
deriving DecidableEq

/-- Insertion step for descending sort by `total`. -/
def insertByTotalDesc (b : hourTraffic) : List hourTraffic → List hourTraffic
  | [] => [b]
  | c :: cs => if c.total ≤ b.total then b :: c :: cs else c :: insertByTotalDesc b cs

/-- Model of the `sort.Slice` call on the collected hours (descending
combined rate, for the top-3 peak events). -/
def sortByTotalDesc : List hourTraffic → List hourTraffic
  | [] => []
  | b :: bs => insertByTotalDesc b (sortByTotalDesc bs)

/-- Accumulator of the hour loop in `processVnStatData`. -/
structure HourAcc where
  sumRx12 : U64 := 0
  sumTx12 : U64 := 0
  sumRx24 : U64 := 0
  sumTx24 : U64 := 0
  count12 : U64 := 0
  count24 : U64 := 0
  peakRx : U64 := 0
  peakTx : U64 := 0
  hours : List hourTraffic := []
deriving DecidableEq

/-- One iteration of the hour loop in `processVnStatData` (monitor.go,
version with the extracted method): a bucket is admitted when
`age <= 24h && age >= 0`, admitted buckets feed the 24h sums, the count,
the peak rates and the peak-events list, and additionally the 12h sums
when `age <= 12h`. -/
def hourStep (now : Int) (acc : HourAcc) (h : TrafficBucket) : HourAcc :=
  let age := now - h.Timestamp
  if age ≤ 86400 ∧ 0 ≤ age then
    let rateRx := h.Rx / 3600
    let rateTx := h.Tx / 3600
    { sumRx24 := u64add acc.sumRx24 h.Rx
      sumTx24 := u64add acc.sumTx24 h.Tx
      count24 := u64add acc.count24 1
      peakRx := if rateRx > acc.peakRx then rateRx else acc.peakRx
      peakTx := if rateTx > acc.peakTx then rateTx else acc.peakTx
      hours := acc.hours ++ [⟨h.Timestamp, rateRx, rateTx, u64add rateRx rateTx⟩]
      sumRx12 := if age ≤ 43200 then u64add acc.sumRx12 h.Rx else acc.sumRx12
      sumTx12 := if age ≤ 43200 then u64add acc.sumTx12 h.Tx else acc.sumTx12
      count12 := if age ≤ 43200 then u64add acc.count12 1 else acc.count12 }
  else acc

/-- The whole hour loop. -/
def hourStats (now : Int) (hour : List TrafficBucket) : HourAcc :=
  hour.foldl (hourStep now) {}

/-- Today's totals in `processVnStatData`: the Go code sorts the `Day`
series ascending by timestamp and reads the last element, leaving the
zero defaults when the series is empty. -/
def dayTotals (day : List TrafficBucket) : U64 × U64 :=
  match (sortByTs day).getLast? with
  | some today => (today.Rx, today.Tx)
  | none => (0, 0)

/-- Live rate in `processVnStatData`: the Go code sorts the
`FiveMinute` series descending by timestamp and divides the newest
bucket's volumes by 300 seconds, leaving the zero defaults when the
series is empty. -/
def liveRate (fm : List TrafficBucket) : U64 × U64 :=
  match (sortByTsDesc fm).head? with
  | some latest => (latest.Rx / 300, latest.Tx / 300)
  | none => (0, 0)

/-- Shallow embedding of `processVnStatData` (monitor.go): today's
totals from the sorted `Day` series, live rate from the newest
`FiveMinute` bucket, windowed averages, peaks and top-3 peak events from
the `Hour` series.  `now` stands for the `time.Now().UTC()` the function
reads.  Fields the Go code leaves untouched keep their zero defaults. -/
def processVnStatData (name ip : String) (now : Int)
    (interfaces : List Interface) : ServerMetrics :=
  match interfaces with
  | [] => { Name := name, IP := ip, Online := true, UpdatedAt := now }
  | iface :: _ =>
    let acc := hourStats now iface.Hour
    let sorted := sortByTotalDesc acc.hours
    let limit := if sorted.length < 3 then sorted.length else 3
    { Name := name, IP := ip, Online := true, UpdatedAt := now
      TotalRx := (dayTotals iface.Day).1
      TotalTx := (dayTotals iface.Day).2
      Rx := (liveRate iface.FiveMinute).1
      Tx := (liveRate iface.FiveMinute).2
      AvgRx12h := if 0 < acc.count12 then acc.sumRx12 / u64mul acc.count12 3600 else 0
      AvgTx12h := if 0 < acc.count12 then acc.sumTx12 / u64mul acc.count12 3600 else 0
      AvgRx24h := if 0 < acc.count24 then acc.sumRx24 / u64mul acc.count24 3600 else 0
      AvgTx24h := if 0 < acc.count24 then acc.sumTx24 / u64mul acc.count24 3600 else 0
      PeakRx := acc.peakRx
      PeakTx := acc.peakTx
      PeakEvents := (sorted.take limit).map (fun h => { Time := h.t, Rx := h.rx, Tx := h.tx }) }

/-- The admission predicate of the hour loop, stated independently of
the fold: a bucket is admitted to the 24h window iff
`0 <= now - Timestamp <= 24h`. -/
def admitted24 (now : Int) (h : TrafficBucket) : Bool :=
  decide (now - h.Timestamp ≤ 86400) && decide (0 ≤ now - h.Timestamp)

/-- Admission to the 12h window: admitted to 24h and `age <= 12h`. -/
def admitted12 (now : Int) (h : TrafficBucket) : Bool :=
  admitted24 now h && decide (now - h.Timestamp ≤ 43200)

/-- The hour-loop accumulator restated over explicit filters of the
input: each field is the fold of its per-bucket update over exactly the
admitted buckets. -/
def hourStatsSpec (now : Int) (hs : List TrafficBucket) : HourAcc :=
  let adm24 := hs.filter (admitted24 now)
  let adm12 := hs.filter (admitted12 now)
  { sumRx24 := adm24.foldl (fun s x => u64add s x.Rx) 0
    sumTx24 := adm24.foldl (fun s x => u64add s x.Tx) 0
    count24 := adm24.foldl (fun c _ => u64add c 1) 0
    peakRx := adm24.foldl (fun p x => if x.Rx / 3600 > p then x.Rx / 3600 else p) 0
    peakTx := adm24.foldl (fun p x => if x.Tx / 3600 > p then x.Tx / 3600 else p) 0
    hours := adm24.foldl
      (fun l x => l ++ [⟨x.Timestamp, x.Rx / 3600, x.Tx / 3600,
        u64add (x.Rx / 3600) (x.Tx / 3600)⟩]) []
    sumRx12 := adm12.foldl (fun s x => u64add s x.Rx) 0
    sumTx12 := adm12.foldl (fun s x => u64add s x.Tx) 0
    count12 := adm12.foldl (fun c _ => u64add c 1) 0 }

end Deriver

namespace Aggregate

/-- Fold state of `updateAggregate` (monitor.go): the published scalars
plus the running `maxUsage` local. -/
structure AggState where
  TotalRx : U64 := 0
  TotalTx : U64 := 0
  GrandTotalAvg : U64 := 0
  GrandTotalPeak : U64 := 0
  DominantServer : String := ""
  maxUsage : U64 := 0
deriving DecidableEq

/-- One iteration of the loop in `updateAggregate`: offline hosts are
skipped entirely; an online host adds its live rates, its
`AvgRx24h + AvgTx24h`, and `max(PeakRx, PeakTx)`, and becomes dominant
when its average sum strictly exceeds the running maximum. -/
def aggStep (st : AggState) (m : Deriver.ServerMetrics) : AggState :=
  if m.Online then
    let serverAvg := u64add m.AvgRx24h m.AvgTx24h
    let serverPeak := if m.PeakTx > m.PeakRx then m.PeakTx else m.PeakRx
    { TotalRx := u64add st.TotalRx m.Rx
      TotalTx := u64add st.TotalTx m.Tx
      GrandTotalAvg := u64add st.GrandTotalAvg serverAvg
      GrandTotalPeak := u64add st.GrandTotalPeak serverPeak
      DominantServer := if serverAvg > st.maxUsage then m.Name else st.DominantServer
      maxUsage := if serverAvg > st.maxUsage then serverAvg else st.maxUsage }
  else st

/-- Shallow embedding of one `updateAggregate` tick (monitor.go).  Go
iterates a map in unspecified order; the model takes the iteration
order as the list order and theorems quantify over it. -/
def updateAggregate (metricsList : List Deriver.ServerMetrics) : AggState :=
  metricsList.foldl aggStep {}

/-- The per-host usage `updateAggregate` ranks hosts by. -/
def serverAvg (m : Deriver.ServerMetrics) : U64 := u64add m.AvgRx24h m.AvgTx24h

/-- The online hosts, in encounter order. -/
def onlineHosts (l : List Deriver.ServerMetrics) : List Deriver.ServerMetrics :=
  l.filter (fun m => m.Online)

/-- The maximal `serverAvg` over the online hosts (0 when none). -/
def maxAvg (l : List Deriver.ServerMetrics) : U64 :=
  ((onlineHosts l).map serverAvg).foldl max 0

/-- Specification-side dominant server: the first-encountered online
host attaining the maximal average sum, provided that maximum is
positive; the empty string otherwise. -/
def dominantSpec (l : List Deriver.ServerMetrics) : String :=
  if maxAvg l = 0 then ""
  else
    match (onlineHosts l).find? (fun m => serverAvg m == maxAvg l) with
    | some m => m.Name
    | none => ""

end Aggregate

namespace Poller

/-- The outcome of one poll of one host, as seen by `collectMetrics`
(monitor.go): the SSH connect can fail, the remote vnstat command can
fail, the returned bytes can fail to parse, or an interface list is
obtained. -/
inductive PollOutcome where
  | connectFailure (msg : String)
  | commandFailure (msg : String)
  | parseFailure (msg : String)
  | parsed (interfaces : List Deriver.Interface)

/-- Shallow embedding of `collectMetrics` (monitor.go): connect and
command errors are recorded verbatim and the host published offline; a
parse error is recorded with the prefix the `fmt.Sprintf` format string
produces; parsed data is processed and published online. -/
def collectMetrics (name ip : String) (now : Int) (o : PollOutcome) :
    Deriver.ServerMetrics :=
  match o with
  | .connectFailure msg =>
    { Name := name, IP := ip, Online := false, UpdatedAt := now, Error := msg }
  | .commandFailure msg =>
    { Name := name, IP := ip, Online := false, UpdatedAt := now, Error := msg }
  | .parseFailure msg =>
    { Name := name, IP := ip, Online := false, UpdatedAt := now
      Error := "failed to parse vnStat data: " ++ msg }
  | .parsed interfaces => Deriver.processVnStatData name ip now interfaces

end Poller

namespace Store

/-- HistoryEntry (monitor.go). -/
structure HistoryEntry where
  Timestamp : Int
  TotalRx : U64
  TotalTx : U64
deriving DecidableEq

/-- The monitor's shared state.  Go shares `*ServerMetrics` by pointer;
the model makes the pointer structure explicit: `heap` is the list of
all `ServerMetrics` records ever published (append-only because the Go
code allocates a fresh record per publish and never writes through a
stored pointer) and `serverMap` maps host names to heap indices. -/
structure StoreState where
  heap : List Deriver.ServerMetrics := []
  serverMap : List (String × Nat) := []
  TotalRx : U64 := 0
  TotalTx : U64 := 0
  GrandTotalAvg : U64 := 0
  GrandTotalPeak : U64 := 0
  DominantServer : String := ""
  History : List HistoryEntry := []
  UpdatedAt : Int := 0

/-- Go map assignment `m.metrics.ServerMetrics[name] = metrics`,
modelled on an association list. -/
def setEntry (m : List (String × Nat)) (k : String) (v : Nat) : List (String × Nat) :=
  match m with
  | [] => [(k, v)]
  | (k0, v0) :: rest => if k0 = k then (k, v) :: rest else (k0, v0) :: setEntry rest k v

/-- The per-host records the aggregator iterates over, resolved through
the heap. -/
def resolvedMetrics (st : StoreState) : List Deriver.ServerMetrics :=
  st.serverMap.filterMap (fun p => st.heap[p.2]?)

/-- The three kinds of writer activity on the store: a poller publishing
one host's metrics (`setServerMetrics`), one `updateAggregate` tick, and
one `cleanHistory` run. -/
inductive WriterOp where
  | publish (name : String) (sm : Deriver.ServerMetrics)
  | aggregateTick (now : Int)
  | trim
deriving DecidableEq

/-- Shallow embedding of the three writers (monitor.go,
`setServerMetrics` / `updateAggregate` / `cleanHistory`): publishing
allocates a fresh record and repoints the map entry; an aggregate tick
recomputes the scalars and appends a history entry; a trim keeps the
last `limit` history entries when the list is longer. -/
def applyOp (limit : Nat) (st : StoreState) : WriterOp → StoreState
  | .publish name sm =>
    { st with
      heap := st.heap ++ [sm]
      serverMap := setEntry st.serverMap name st.heap.length }
  | .aggregateTick now =>
    let agg := Aggregate.updateAggregate (resolvedMetrics st)
    { st with
      TotalRx := agg.TotalRx, TotalTx := agg.TotalTx
      GrandTotalAvg := agg.GrandTotalAvg, GrandTotalPeak := agg.GrandTotalPeak
      DominantServer := agg.DominantServer, UpdatedAt := now
      History := st.History ++
        [{ Timestamp := now, TotalRx := agg.TotalRx, TotalTx := agg.TotalTx }] }
  | .trim =>
    if limit < st.History.length
    then { st with History := st.History.drop (st.History.length - limit) }
    else st

/-- A sequence of writer operations. -/
def applyOps (limit : Nat) (st : StoreState) (ops : List WriterOp) : StoreState :=
  ops.foldl (applyOp limit) st

/-- The state `NewMonitor` builds: empty map, empty history. -/
def initState : StoreState := {}

/-- historyLimit from `NewMonitor` (monitor.go):
`int((5 * time.Minute) / pollInterval)`, floored at 1.  Durations are
int64 nanoseconds and poll intervals are positive, so Nat division
matches Go's truncated division. -/
def historyLimit (pollIntervalNs : Nat) : Nat :=
  let l := 300000000000 / pollIntervalNs
  if l < 1 then 1 else l

/-- The value `GetMetrics` returns (monitor.go): fresh copies of the
scalars and of the history slice, and a fresh map still holding the
published record pointers (heap indices). -/
structure Snapshot where
  TotalRx : U64
  TotalTx : U64
  GrandTotalAvg : U64
  GrandTotalPeak : U64
  DominantServer : String
  serverPtrs : List (String × Nat)
  History : List HistoryEntry
  UpdatedAt : Int
deriving DecidableEq

/-- Shallow embedding of `GetMetrics` (monitor.go). -/
def getMetrics (st : StoreState) : Snapshot :=
  { TotalRx := st.TotalRx, TotalTx := st.TotalTx
    GrandTotalAvg := st.GrandTotalAvg, GrandTotalPeak := st.GrandTotalPeak
    DominantServer := st.DominantServer, serverPtrs := st.serverMap
    History := st.History, UpdatedAt := st.UpdatedAt }

/-- Everything a reader can observe of a returned snapshot: the scalar
fields, every map entry dereferenced through the heap, every history
entry. -/
structure SnapshotView where
  TotalRx : U64
  TotalTx : U64
  GrandTotalAvg : U64
  GrandTotalPeak : U64
  DominantServer : String
  servers : List (String × Option Deriver.ServerMetrics)
  History : List HistoryEntry
  UpdatedAt : Int
deriving DecidableEq

/-- Dereference a snapshot against a heap. -/
def readSnapshot (heap : List Deriver.ServerMetrics) (s : Snapshot) : SnapshotView :=
  { TotalRx := s.TotalRx, TotalTx := s.TotalTx
    GrandTotalAvg := s.GrandTotalAvg, GrandTotalPeak := s.GrandTotalPeak
    DominantServer := s.DominantServer
    servers := s.serverPtrs.map (fun p => (p.1, heap[p.2]?))
    History := s.History, UpdatedAt := s.UpdatedAt }

/-- Well-formedness: every map entry points into the heap. -/
def WF (st : StoreState) : Prop := ∀ p ∈ st.serverMap, p.2 < st.heap.length

instance (st : StoreState) : Decidable (WF st) :=
  inferInstanceAs (Decidable (∀ p ∈ st.serverMap, p.2 < st.heap.length))

/-- The timestamps of the aggregate ticks in an operation sequence, in
order. -/
def aggTimes : List WriterOp → List Int
  | [] => []
  | .aggregateTick t :: rest => t :: aggTimes rest
  | .publish _ _ :: rest => aggTimes rest
  | .trim :: rest => aggTimes rest

/-- The history timestamps of a state. -/
def histTimes (st : StoreState) : List Int := st.History.map (fun e => e.Timestamp)

end Store

namespace SpecDeriver

/-- Modelled from the spec: a traffic bucket of the current parser, a
UTC-normalised start instant plus the volumes. -/
structure Bucket where
  start : Int
  rx : U64
  tx : U64
deriving DecidableEq

/-- Modelled from the spec: the current parser's snapshot.  The
repository's current monitor.go — the adaptive, timezone-tolerant
deriver whose test `monitor_timezone_test.go` is in the source tree and
which that test exercises through `VnStatTime.IsTimestamp` and
`processVnStatData` — is not among the provided source files; only its
test is.  Per spec section 4.2, the parser sets `needsRelativeAge` when
any bucket id was the legacy object form, and the envelope carries the
host-reported `updatedAt`. -/
structure Snapshot where
  updatedAt : Int
  needsRelativeAge : Bool
  fiveMinute : List Bucket := []
  hour : List Bucket := []
  day : List Bucket := []

/-- Modelled from the spec: derived per-host metrics of the current
deriver (the fields the claims mention). -/
structure Metrics where
  Rx : U64 := 0
  Tx : U64 := 0
  TotalRx : U64 := 0
  TotalTx : U64 := 0
  AvgRx12h : U64 := 0
  AvgTx12h : U64 := 0
  AvgRx24h : U64 := 0
  AvgTx24h : U64 := 0
  PeakRx : U64 := 0
  PeakTx : U64 := 0
deriving DecidableEq

/-- Modelled from the spec: select the most recent bucket by start
instant, ties broken by arrival order (spec section 4.3). -/
def latestBucket (l : List Bucket) : Option Bucket :=
  l.foldl
    (fun best b =>
      match best with
      | none => some b
      | some c => if c.start < b.start then some b else some c)
    none

/-- Accumulator of the current deriver's hour loop. -/
structure HourAcc where
  sumRx12 : U64 := 0
  sumTx12 : U64 := 0
  sumRx24 : U64 := 0
  sumTx24 : U64 := 0
  count12 : U64 := 0
  count24 : U64 := 0
  peakRx : U64 := 0
  peakTx : U64 := 0
deriving DecidableEq

/-- Modelled from the spec (section 4.3): one hour bucket against the
age anchor.  Admission to the 24h window iff `-1h < age <= 24h`;
within it the volumes feed the 24h sums and the per-bucket rates the
peaks, and the sub-predicate `age <= 12h` gates the 12h sums. -/
def hourStep (anchor : Int) (acc : HourAcc) (b : Bucket) : HourAcc :=
  let age := anchor - b.start
  if -3600 < age ∧ age ≤ 86400 then
    let rateRx := b.rx / 3600
    let rateTx := b.tx / 3600
    { sumRx24 := u64add acc.sumRx24 b.rx
      sumTx24 := u64add acc.sumTx24 b.tx
      count24 := u64add acc.count24 1
      peakRx := if rateRx > acc.peakRx then rateRx else acc.peakRx
      peakTx := if rateTx > acc.peakTx then rateTx else acc.peakTx
      sumRx12 := if age ≤ 43200 then u64add acc.sumRx12 b.rx else acc.sumRx12
      sumTx12 := if age ≤ 43200 then u64add acc.sumTx12 b.tx else acc.sumTx12
      count12 := if age ≤ 43200 then u64add acc.count12 1 else acc.count12 }
  else acc

/-- The current deriver's hour loop against a fixed anchor. -/
def hourStats (anchor : Int) (hour : List Bucket) : HourAcc :=
  hour.foldl (hourStep anchor) {}

/-- Modelled from the spec (section 4.3): the age anchor is the
monitor's wall clock for a fully modern snapshot and the host-reported
`updatedAt` as soon as any legacy id was seen. -/
def ageAnchor (wallNow : Int) (s : Snapshot) : Int :=
  if s.needsRelativeAge then s.updatedAt else wallNow

/-- Modelled from the spec (section 4.3): live rate from the most
recent five-minute bucket, volumes over 300 seconds; zero when the
series is empty. -/
def liveRate (fm : List Bucket) : U64 × U64 :=
  match latestBucket fm with
  | some b => (b.rx / 300, b.tx / 300)
  | none => (0, 0)

/-- Modelled from the spec (section 4.3): today's totals are the
volumes of the latest day bucket; zero when the series is empty. -/
def dayTotals (day : List Bucket) : U64 × U64 :=
  match latestBucket day with
  | some b => (b.rx, b.tx)
  | none => (0, 0)

/-- Modelled from the spec (section 4.3): the current deriver.  Live
rate from the most recent five-minute bucket (`/300`), today's totals
from the latest day bucket, windowed averages and peaks from the hour
series with ages taken against `ageAnchor`. -/
def derive (wallNow : Int) (s : Snapshot) : Metrics :=
  let anchor := ageAnchor wallNow s
  let acc := hourStats anchor s.hour
  { Rx := (liveRate s.fiveMinute).1
    Tx := (liveRate s.fiveMinute).2
    TotalRx := (dayTotals s.day).1
    TotalTx := (dayTotals s.day).2
    AvgRx12h := if 0 < acc.count12 then acc.sumRx12 / u64mul acc.count12 3600 else 0
    AvgTx12h := if 0 < acc.count12 then acc.sumTx12 / u64mul acc.count12 3600 else 0
    AvgRx24h := if 0 < acc.count24 then acc.sumRx24 / u64mul acc.count24 3600 else 0
    AvgTx24h := if 0 < acc.count24 then acc.sumTx24 / u64mul acc.count24 3600 else 0
    PeakRx := acc.peakRx
    PeakTx := acc.peakTx }

/-- The 24h admission predicate of the current deriver, stated
independently of the fold. -/
def admitted24 (anchor : Int) (b : Bucket) : Bool :=
  decide (-3600 < anchor - b.start) && decide (anchor - b.start ≤ 86400)

/-- The 12h admission predicate: admitted to 24h and `age <= 12h`. -/
def admitted12 (anchor : Int) (b : Bucket) : Bool :=
  admitted24 anchor b && decide (anchor - b.start ≤ 43200)

/-- The current deriver's hour-loop accumulator restated over explicit
filters of the input: each field is the fold of its per-bucket update
over exactly the admitted buckets. -/
def hourStatsSpec (anchor : Int) (hs : List Bucket) : HourAcc :=
  let adm24 := hs.filter (admitted24 anchor)
  let adm12 := hs.filter (admitted12 anchor)
  { sumRx24 := adm24.foldl (fun s x => u64add s x.rx) 0
    sumTx24 := adm24.foldl (fun s x => u64add s x.tx) 0
    count24 := adm24.foldl (fun c _ => u64add c 1) 0
    peakRx := adm24.foldl (fun p x => if x.rx / 3600 > p then x.rx / 3600 else p) 0
    peakTx := adm24.foldl (fun p x => if x.tx / 3600 > p then x.tx / 3600 else p) 0
    sumRx12 := adm12.foldl (fun s x => u64add s x.rx) 0
    sumTx12 := adm12.foldl (fun s x => u64add s x.tx) 0
    count12 := adm12.foldl (fun c _ => u64add c 1) 0 }

/-- The scenario of spec test S6 and of `monitor_timezone_test.go`: a
legacy-dialect snapshot whose `updated` envelope and bucket ids sit at
host-local time `t`, three hours ahead of the monitor's wall clock.
The five-minute bucket carries 1500 bytes, the hour bucket 360000. -/
def legacyScenario (t : Int) : Snapshot :=
  { updatedAt := t, needsRelativeAge := true
    fiveMinute := [{ start := t - 300, rx := 1500, tx := 3000 }]
    hour := [{ start := t - 1800, rx := 360000, tx := 360000 }] }

end SpecDeriver

namespace Scenarios

/-- Host A of spec scenario S4: its remote shell fails on every call,
so every poll publishes it offline with the transport error. -/
def hostA : Deriver.ServerMetrics :=
  Poller.collectMetrics "A" "10.0.0.1" 0
    (Poller.PollOutcome.connectFailure "dial tcp 10.0.0.1:22: connection refused")

/-- Host B of spec scenario S4: online, a single five-minute bucket of
30000 bytes, hence live rate 100 B/s, and no hour data (all averages
zero). -/
def hostB : Deriver.ServerMetrics :=
  Poller.collectMetrics "B" "10.0.0.2" 1000000
    (Poller.PollOutcome.parsed
      [{ FiveMinute := [{ Timestamp := 1000000, Rx := 30000, Tx := 30000 }] }])

/-- Host B with additionally one admitted hour bucket, so its 24h
averages are positive. -/
def hostBpos : Deriver.ServerMetrics :=
  Poller.collectMetrics "B" "10.0.0.2" 1000000
    (Poller.PollOutcome.parsed
      [{ FiveMinute := [{ Timestamp := 1000000, Rx := 30000, Tx := 30000 }]
         Hour := [{ Timestamp := 998200, Rx := 360000, Tx := 720000 }] }])

/-- The hour series of spec scenario S2: 25 buckets at ages 0h..24h,
24 of them with rx=3600, tx=7200, and the one at age 2h with rx=36000,
tx=72000. -/
def hourSeries25 : List Deriver.TrafficBucket :=
  (List.range 25).map (fun k =>
    { Timestamp := 1000000 - 3600 * (k : Int)
      Rx := if k = 2 then 36000 else 3600
      Tx := if k = 2 then 72000 else 7200 })

/-- An interface carrying scenario S2's hour series. -/
def c7Iface : Deriver.Interface := { Hour := hourSeries25 }

/-- A day series arriving out of order: the bucket with the latest
timestamp sits in the middle. -/
def c6Day : List Deriver.TrafficBucket :=
  [{ Timestamp := 1697000000, Rx := 111, Tx := 222 },
   { Timestamp := 1697086400, Rx := 500, Tx := 600 },
   { Timestamp := 1696913600, Rx := 7, Tx := 8 }]

/-- An interface carrying the out-of-order day series. -/
def c6Iface : Deriver.Interface := { Day := c6Day }

/-- The legacy bucket of spec scenario S3. -/
def c3Desc : Parser.LegacyDesc :=
  { year := 2023, month := 10, day := 27, hour := 14, minute := 0
    rx := 1000, tx := 2000 }

/-- A bucket far outside the 24h window of the 3h-ahead legacy
scenario (age 90800 s against its anchor). -/
def staleBucket : SpecDeriver.Bucket := { start := -80000, rx := 5, tx := 5 }

/-- A store already holding one published record for host B. -/
def storeSt : Store.StoreState := { heap := [hostB], serverMap := [("B", 0)] }

/-- A burst of writer activity: a publish, an aggregate tick, a trim. -/
def storeOps : List Store.WriterOp :=
  [Store.WriterOp.publish "A" hostA, Store.WriterOp.aggregateTick 7,
   Store.WriterOp.trim]

end Scenarios

/-!
Theorems.  Each claim Cn is settled by one theorem carrying its id;
helper lemmas precede them.
-/

theorem TimeModel.epochSecs_example :
    TimeModel.epochSecs 2023 10 27 14 0 = 1698415200 := by decide

namespace Parser

theorem parseVnStatTime_legacy (b : LegacyDesc) (h : Admissible b) :
    parseVnStatTime (legacyRaw b).1 =
      some (TimeModel.epochSecs b.year b.month b.day b.hour b.minute) := by
  obtain ⟨hm, hd⟩ := h
  have step : parseVnStatTime (legacyRaw b).1 =
      some (TimeModel.epochSecs b.year (if b.month = 0 then 1 else b.month)
        (if b.day = 0 then 1 else b.day) b.hour b.minute) := rfl
  rw [step, if_neg (by omega), if_neg (by omega)]

theorem parseBucket_legacy_eq_modern (b : LegacyDesc) (h : Admissible b) :
    parseBucket (legacyRaw b).1 (legacyRaw b).2.1 (legacyRaw b).2.2 =
      parseBucket (modernRaw b).1 (modernRaw b).2.1 (modernRaw b).2.2 := by
  simp only [parseBucket, parseVnStatTime_legacy b h]
  simp only [legacyRaw, modernRaw, parseVnStatTime]

theorem parseSeries_legacy_eq_modern (bs : List LegacyDesc)
    (h : ∀ b ∈ bs, Admissible b) :
    parseSeries (bs.map legacyRaw) = parseSeries (bs.map modernRaw) := by
  induction bs with
  | nil => rfl
  | cons b rest ih =>
    have hb := parseBucket_legacy_eq_modern b (h b (List.mem_cons_self b rest))
    have hrest := ih (fun x hx => h x (List.mem_cons_of_mem b hx))
    simp only [parseSeries, List.map_cons, List.mapM_cons] at hb hrest ⊢
    rw [hb, hrest]

end Parser

namespace Aggregate

theorem foldl_aggStep_filter (l : List Deriver.ServerMetrics) (st : AggState) :
    l.foldl aggStep st = (onlineHosts l).foldl aggStep st := by
  induction l generalizing st with
  | nil => rfl
  | cons m rest ih =>
    by_cases h : m.Online
    · simp only [onlineHosts, List.filter_cons, h, if_pos, List.foldl_cons]
      exact ih (aggStep st m)
    · have hstep : aggStep st m = st := by simp [aggStep, h]
      simp only [onlineHosts, List.filter_cons, h, Bool.false_eq_true, if_false,
        List.foldl_cons, hstep]
      exact ih st

theorem init_le_foldl_max (init : U64) (vals : List U64) :
    init ≤ vals.foldl max init := by
  induction vals generalizing init with
  | nil => exact le_refl _
  | cons a rest ih =>
    exact le_trans (le_max_left init a) (ih (max init a))

theorem mem_le_foldl_max (init : U64) (vals : List U64) (v : U64) (hv : v ∈ vals) :
    v ≤ vals.foldl max init := by
  induction vals generalizing init with
  | nil => cases hv
  | cons a rest ih =>
    rcases List.mem_cons.mp hv with rfl | hmem
    · exact le_trans (le_max_right init v) (init_le_foldl_max _ _)
    · exact ih (max init a) hmem

theorem foldl_max_eq_or_mem (init : U64) (vals : List U64) :
    vals.foldl max init = init ∨ vals.foldl max init ∈ vals := by
  induction vals generalizing init with
  | nil => exact Or.inl rfl
  | cons a rest ih =>
    rcases ih (max init a) with heq | hmem
    · rw [List.foldl_cons, heq]
      rcases Nat.le_total init a with h | h
      · exact Or.inr (by rw [Nat.max_eq_right h]; exact List.mem_cons_self a rest)
      · exact Or.inl (Nat.max_eq_left h)
    · exact Or.inr (List.mem_cons_of_mem a hmem)

theorem updateAggregate_append (l : List Deriver.ServerMetrics) (m : Deriver.ServerMetrics) :
    updateAggregate (l ++ [m]) = aggStep (updateAggregate l) m := by
  simp [updateAggregate, List.foldl_append]

theorem maxAvg_append_online (l : List Deriver.ServerMetrics)
    (m : Deriver.ServerMetrics) (h : m.Online = true) :
    maxAvg (l ++ [m]) = max (maxAvg l) (serverAvg m) := by
  simp [maxAvg, onlineHosts, List.filter_append, h, List.foldl_append]

theorem maxAvg_append_offline (l : List Deriver.ServerMetrics)
    (m : Deriver.ServerMetrics) (h : m.Online = false) :
    maxAvg (l ++ [m]) = maxAvg l := by
  simp [maxAvg, onlineHosts, List.filter_append, h]


theorem aggStep_offline (st : AggState) (m : Deriver.ServerMetrics)
    (h : m.Online = false) : aggStep st m = st := by
  simp [aggStep, h]

theorem aggStep_online_proj (st : AggState) (m : Deriver.ServerMetrics)
    (h : m.Online = true) :
    (aggStep st m).maxUsage =
        (if serverAvg m > st.maxUsage then serverAvg m else st.maxUsage) ∧
      (aggStep st m).DominantServer =
        (if serverAvg m > st.maxUsage then m.Name else st.DominantServer) := by
  simp [aggStep, h, serverAvg]

theorem onlineHosts_append_online (l : List Deriver.ServerMetrics)
    (m : Deriver.ServerMetrics) (h : m.Online = true) :
    onlineHosts (l ++ [m]) = onlineHosts l ++ [m] := by
  simp [onlineHosts, List.filter_append, h]

theorem dominantSpec_append_offline (l : List Deriver.ServerMetrics)
    (m : Deriver.ServerMetrics) (h : m.Online = false) :
    dominantSpec (l ++ [m]) = dominantSpec l := by
  simp [dominantSpec, maxAvg, onlineHosts, List.filter_append, h]

theorem serverAvg_le_maxAvg (l : List Deriver.ServerMetrics)
    (x : Deriver.ServerMetrics) (hx : x ∈ onlineHosts l) :
    serverAvg x ≤ maxAvg l :=
  mem_le_foldl_max 0 _ _ (List.mem_map_of_mem serverAvg hx)

theorem maxAvg_attained (l : List Deriver.ServerMetrics) :
    maxAvg l = 0 ∨ ∃ x ∈ onlineHosts l, serverAvg x = maxAvg l := by
  rcases foldl_max_eq_or_mem 0 ((onlineHosts l).map serverAvg) with h | h
  · exact Or.inl h
  · right
    obtain ⟨x, hx, hx2⟩ := List.mem_map.mp h
    exact ⟨x, hx, hx2⟩

theorem updateAggregate_dominant (l : List Deriver.ServerMetrics) :
    (updateAggregate l).maxUsage = maxAvg l ∧
      (updateAggregate l).DominantServer = dominantSpec l := by
  induction l using List.reverseRecOn with
  | nil => exact ⟨rfl, rfl⟩
  | append_singleton l m ih =>
    obtain ⟨ihMax, ihDom⟩ := ih
    rw [updateAggregate_append]
    by_cases hon : m.Online = true
    · have hfilter := onlineHosts_append_online l m hon
      constructor
      · rw [(aggStep_online_proj (updateAggregate l) m hon).1]
        rw [ihMax, maxAvg_append_online l m hon]
        by_cases hgt : serverAvg m > maxAvg l
        · rw [if_pos hgt, Nat.max_eq_right (le_of_lt hgt)]
        · rw [if_neg hgt, Nat.max_eq_left (Nat.le_of_not_lt hgt)]
      · rw [(aggStep_online_proj (updateAggregate l) m hon).2]
        rw [ihMax, ihDom]
        by_cases hgt : serverAvg m > maxAvg l
        · rw [if_pos hgt]
          have hMA : maxAvg (l ++ [m]) = serverAvg m := by
            rw [maxAvg_append_online l m hon]
            exact Nat.max_eq_right (le_of_lt hgt)
          have hnone : (onlineHosts l).find?
              (fun x => serverAvg x == maxAvg (l ++ [m])) = none := by
            apply List.find?_eq_none.mpr
            intro x hx
            have hle := serverAvg_le_maxAvg l x hx
            simp only [beq_iff_eq, hMA]
            exact Nat.ne_of_lt (lt_of_le_of_lt hle hgt)
          have hpos : 0 < serverAvg m := Nat.lt_of_le_of_lt (Nat.zero_le _) hgt
          simp only [dominantSpec]
          rw [if_neg (show ¬maxAvg (l ++ [m]) = 0 by
            rw [hMA]; exact Nat.pos_iff_ne_zero.mp hpos)]
          rw [hfilter, List.find?_append, hnone]
          simp [hMA, Option.or]
        · rw [if_neg hgt]
          have hle : serverAvg m ≤ maxAvg l := Nat.le_of_not_lt hgt
          have hMA : maxAvg (l ++ [m]) = maxAvg l := by
            rw [maxAvg_append_online l m hon]
            exact Nat.max_eq_left hle
          simp only [dominantSpec, hMA, hfilter]
          by_cases hz : maxAvg l = 0
          · rw [if_pos hz, if_pos hz]
          · rw [if_neg hz, if_neg hz]
            rcases maxAvg_attained l with h0 | ⟨y, hy, hy2⟩
            · exact absurd h0 hz
            · have hsome : ((onlineHosts l).find?
                  (fun x => serverAvg x == maxAvg l)).isSome := by
                rw [List.find?_isSome]
                exact ⟨y, hy, by simp [hy2]⟩
              obtain ⟨z, hz2⟩ := Option.isSome_iff_exists.mp hsome
              rw [List.find?_append, hz2]
              simp [Option.or]
    · have hoff : m.Online = false := by
        simpa using hon
      rw [aggStep_offline _ _ hoff, maxAvg_append_offline l m hoff,
        dominantSpec_append_offline l m hoff]
      exact ⟨ihMax, ihDom⟩

theorem updateAggregate_online_filter (l : List Deriver.ServerMetrics) :
    updateAggregate l = updateAggregate (onlineHosts l) :=
  foldl_aggStep_filter l {}

end Aggregate

namespace Deriver

theorem mem_insertByTs (b x : TrafficBucket) (l : List TrafficBucket) :
    x ∈ insertByTs b l ↔ x = b ∨ x ∈ l := by
  induction l with
  | nil => simp [insertByTs]
  | cons c cs ih =>
    by_cases h : b.Timestamp ≤ c.Timestamp
    · simp [insertByTs, h]
    · simp only [insertByTs, if_neg h, List.mem_cons, ih]
      tauto

theorem mem_sortByTs (x : TrafficBucket) (l : List TrafficBucket) :
    x ∈ sortByTs l ↔ x ∈ l := by
  induction l with
  | nil => simp [sortByTs]
  | cons c cs ih =>
    simp [sortByTs, mem_insertByTs, ih]

theorem insertByTs_ne_nil (b : TrafficBucket) (l : List TrafficBucket) :
    insertByTs b l ≠ [] := by
  cases l with
  | nil => simp [insertByTs]
  | cons c cs =>
    by_cases h : b.Timestamp ≤ c.Timestamp <;> simp [insertByTs, h]

theorem getLast?_insertByTs (b : TrafficBucket) (l : List TrafficBucket) :
    (insertByTs b l).getLast? =
      if ∀ c ∈ l, c.Timestamp < b.Timestamp then some b else l.getLast? := by
  induction l with
  | nil => simp [insertByTs]
  | cons c cs ih =>
    by_cases h : b.Timestamp ≤ c.Timestamp
    · rw [if_neg (fun hall => absurd (hall c (List.mem_cons_self c cs)) (not_lt.mpr h))]
      simp only [insertByTs]
      rw [if_pos h, List.getLast?_cons_cons]
    · have hlt : c.Timestamp < b.Timestamp := not_le.mp h
      simp only [insertByTs]
      rw [if_neg h]
      obtain ⟨d, ds, hds⟩ : ∃ d ds, insertByTs b cs = d :: ds := by
        cases hins : insertByTs b cs with
        | nil => exact absurd hins (insertByTs_ne_nil b cs)
        | cons d ds => exact ⟨d, ds, rfl⟩
      by_cases hall : ∀ x ∈ cs, x.Timestamp < b.Timestamp
      · rw [if_pos (by
          intro x hx
          rcases List.mem_cons.mp hx with rfl | hx2
          · exact hlt
          · exact hall x hx2)]
        rw [hds, List.getLast?_cons_cons, ← hds, ih, if_pos hall]
      · rw [if_neg (by
          intro hcall
          exact hall (fun x hx => hcall x (List.mem_cons_of_mem c hx)))]
        obtain ⟨e, es, hes⟩ : ∃ e es, cs = e :: es := by
          cases cs with
          | nil => exact absurd (by intro x hx; cases hx) hall
          | cons e es => exact ⟨e, es, rfl⟩
        rw [hds, List.getLast?_cons_cons, ← hds, ih, if_neg hall, hes,
          List.getLast?_cons_cons]

theorem getLast?_sortByTs_max (l : List TrafficBucket) (b : TrafficBucket)
    (hb : b ∈ l) (hmax : ∀ c ∈ l, c ≠ b → c.Timestamp < b.Timestamp) :
    (sortByTs l).getLast? = some b := by
  induction l with
  | nil => cases hb
  | cons x xs ih =>
    show (insertByTs x (sortByTs xs)).getLast? = some b
    rw [getLast?_insertByTs]
    by_cases hall : ∀ c ∈ sortByTs xs, c.Timestamp < x.Timestamp
    · rw [if_pos hall]
      by_cases hxb : x = b
      · rw [hxb]
      · rcases List.mem_cons.mp hb with rfl | hbxs
        · exact absurd rfl hxb
        · have h1 := hall b ((mem_sortByTs b xs).mpr hbxs)
          have h2 := hmax x (List.mem_cons_self x xs) hxb
          exact absurd h1 (lt_asymm h2)
    · rw [if_neg hall]
      have hbxs : b ∈ xs := by
        rcases List.mem_cons.mp hb with rfl | hbxs
        · push_neg at hall
          obtain ⟨c, hc, hcge⟩ := hall
          have hcxs := (mem_sortByTs c xs).mp hc
          rcases eq_or_ne c b with rfl | hcb
          · exact hcxs
          · have := hmax c (List.mem_cons_of_mem b hcxs) hcb
            exact absurd this (not_lt.mpr hcge)
        · exact hbxs
      exact ih hbxs (fun c hc hcb => hmax c (List.mem_cons_of_mem x hc) hcb)

theorem admitted24_iff (now : Int) (h : TrafficBucket) :
    admitted24 now h = true ↔
      (now - h.Timestamp ≤ 86400 ∧ 0 ≤ now - h.Timestamp) := by
  simp [admitted24]

theorem admitted12_eq_of_admitted24 (now : Int) (h : TrafficBucket)
    (hadm : admitted24 now h = true) :
    admitted12 now h = decide (now - h.Timestamp ≤ 43200) := by
  simp [admitted12, hadm]

theorem admitted12_false_of_not24 (now : Int) (h : TrafficBucket)
    (hadm : admitted24 now h = false) : admitted12 now h = false := by
  simp [admitted12, hadm]

theorem hourStep_not_admitted (now : Int) (acc : HourAcc) (h : TrafficBucket)
    (hadm : admitted24 now h = false) : hourStep now acc h = acc := by
  have hna : ¬(now - h.Timestamp ≤ 86400 ∧ 0 ≤ now - h.Timestamp) := by
    intro hc
    rw [(admitted24_iff now h).mpr hc] at hadm
    cases hadm
  simp only [hourStep]
  rw [if_neg hna]

theorem hourStep_admitted (now : Int) (acc : HourAcc) (h : TrafficBucket)
    (hadm : admitted24 now h = true) :
    hourStep now acc h =
      { sumRx24 := u64add acc.sumRx24 h.Rx
        sumTx24 := u64add acc.sumTx24 h.Tx
        count24 := u64add acc.count24 1
        peakRx := if h.Rx / 3600 > acc.peakRx then h.Rx / 3600 else acc.peakRx
        peakTx := if h.Tx / 3600 > acc.peakTx then h.Tx / 3600 else acc.peakTx
        hours := acc.hours ++ [⟨h.Timestamp, h.Rx / 3600, h.Tx / 3600,
          u64add (h.Rx / 3600) (h.Tx / 3600)⟩]
        sumRx12 := if now - h.Timestamp ≤ 43200
          then u64add acc.sumRx12 h.Rx else acc.sumRx12
        sumTx12 := if now - h.Timestamp ≤ 43200
          then u64add acc.sumTx12 h.Tx else acc.sumTx12
        count12 := if now - h.Timestamp ≤ 43200
          then u64add acc.count12 1 else acc.count12 } := by
  simp only [hourStep]
  rw [if_pos ((admitted24_iff now h).mp hadm)]

end Deriver

namespace Deriver

theorem hourStats_go (now : Int) (hs : List TrafficBucket) : ∀ acc : HourAcc,
    hs.foldl (hourStep now) acc =
      { sumRx24 := (hs.filter (admitted24 now)).foldl
          (fun s x => u64add s x.Rx) acc.sumRx24
        sumTx24 := (hs.filter (admitted24 now)).foldl
          (fun s x => u64add s x.Tx) acc.sumTx24
        count24 := (hs.filter (admitted24 now)).foldl
          (fun c _ => u64add c 1) acc.count24
        peakRx := (hs.filter (admitted24 now)).foldl
          (fun p x => if x.Rx / 3600 > p then x.Rx / 3600 else p) acc.peakRx
        peakTx := (hs.filter (admitted24 now)).foldl
          (fun p x => if x.Tx / 3600 > p then x.Tx / 3600 else p) acc.peakTx
        hours := (hs.filter (admitted24 now)).foldl
          (fun l x => l ++ [⟨x.Timestamp, x.Rx / 3600, x.Tx / 3600,
            u64add (x.Rx / 3600) (x.Tx / 3600)⟩]) acc.hours
        sumRx12 := (hs.filter (admitted12 now)).foldl
          (fun s x => u64add s x.Rx) acc.sumRx12
        sumTx12 := (hs.filter (admitted12 now)).foldl
          (fun s x => u64add s x.Tx) acc.sumTx12
        count12 := (hs.filter (admitted12 now)).foldl
          (fun c _ => u64add c 1) acc.count12 } := by
  induction hs with
  | nil => intro acc; rfl
  | cons h t ih =>
    intro acc
    rw [List.foldl_cons]
    by_cases hadm : admitted24 now h = true
    · rw [hourStep_admitted now acc h hadm, ih]
      by_cases h12 : now - h.Timestamp ≤ 43200
      · have hadm12 : admitted12 now h = true := by
          rw [admitted12_eq_of_admitted24 now h hadm]
          simpa using h12
        simp only [List.filter_cons, hadm, hadm12, if_true, List.foldl_cons,
          if_pos h12]
      · have hadm12 : admitted12 now h = false := by
          rw [admitted12_eq_of_admitted24 now h hadm]
          simpa using h12
        simp only [List.filter_cons, hadm, hadm12, if_true, Bool.false_eq_true,
          if_false, List.foldl_cons, if_neg h12]
    · have hadm24 : admitted24 now h = false := by simpa using hadm
      rw [hourStep_not_admitted now acc h hadm24, ih]
      simp only [List.filter_cons, hadm24, admitted12_false_of_not24 now h hadm24,
        Bool.false_eq_true, if_false]

theorem hourStats_eq_spec (now : Int) (hs : List TrafficBucket) :
    hourStats now hs = hourStatsSpec now hs := by
  rw [hourStats, hourStats_go]
  rfl

end Deriver

namespace SpecDeriver

theorem specAdmitted24_iff (anchor : Int) (b : Bucket) :
    admitted24 anchor b = true ↔
      (-3600 < anchor - b.start ∧ anchor - b.start ≤ 86400) := by
  simp [admitted24]

theorem specAdmitted12_eq_of_admitted24 (anchor : Int) (b : Bucket)
    (hadm : admitted24 anchor b = true) :
    admitted12 anchor b = decide (anchor - b.start ≤ 43200) := by
  simp [admitted12, hadm]

theorem specAdmitted12_false_of_not24 (anchor : Int) (b : Bucket)
    (hadm : admitted24 anchor b = false) : admitted12 anchor b = false := by
  simp [admitted12, hadm]

theorem specHourStep_not_admitted (anchor : Int) (acc : HourAcc) (b : Bucket)
    (hadm : admitted24 anchor b = false) : hourStep anchor acc b = acc := by
  have hna : ¬(-3600 < anchor - b.start ∧ anchor - b.start ≤ 86400) := by
    intro hc
    rw [(specAdmitted24_iff anchor b).mpr hc] at hadm
    cases hadm
  simp only [hourStep]
  rw [if_neg hna]

theorem specHourStep_admitted (anchor : Int) (acc : HourAcc) (b : Bucket)
    (hadm : admitted24 anchor b = true) :
    hourStep anchor acc b =
      { sumRx24 := u64add acc.sumRx24 b.rx
        sumTx24 := u64add acc.sumTx24 b.tx
        count24 := u64add acc.count24 1
        peakRx := if b.rx / 3600 > acc.peakRx then b.rx / 3600 else acc.peakRx
        peakTx := if b.tx / 3600 > acc.peakTx then b.tx / 3600 else acc.peakTx
        sumRx12 := if anchor - b.start ≤ 43200
          then u64add acc.sumRx12 b.rx else acc.sumRx12
        sumTx12 := if anchor - b.start ≤ 43200
          then u64add acc.sumTx12 b.tx else acc.sumTx12
        count12 := if anchor - b.start ≤ 43200
          then u64add acc.count12 1 else acc.count12 } := by
  simp only [hourStep]
  rw [if_pos ((specAdmitted24_iff anchor b).mp hadm)]

theorem specHourStats_go (anchor : Int) (hs : List Bucket) : ∀ acc : HourAcc,
    hs.foldl (hourStep anchor) acc =
      { sumRx24 := (hs.filter (admitted24 anchor)).foldl
          (fun s x => u64add s x.rx) acc.sumRx24
        sumTx24 := (hs.filter (admitted24 anchor)).foldl
          (fun s x => u64add s x.tx) acc.sumTx24
        count24 := (hs.filter (admitted24 anchor)).foldl
          (fun c _ => u64add c 1) acc.count24
        peakRx := (hs.filter (admitted24 anchor)).foldl
          (fun p x => if x.rx / 3600 > p then x.rx / 3600 else p) acc.peakRx
        peakTx := (hs.filter (admitted24 anchor)).foldl
          (fun p x => if x.tx / 3600 > p then x.tx / 3600 else p) acc.peakTx
        sumRx12 := (hs.filter (admitted12 anchor)).foldl
          (fun s x => u64add s x.rx) acc.sumRx12
        sumTx12 := (hs.filter (admitted12 anchor)).foldl
          (fun s x => u64add s x.tx) acc.sumTx12
        count12 := (hs.filter (admitted12 anchor)).foldl
          (fun c _ => u64add c 1) acc.count12 } := by
  induction hs with
  | nil => intro acc; rfl
  | cons b t ih =>
    intro acc
    rw [List.foldl_cons]
    by_cases hadm : admitted24 anchor b = true
    · rw [specHourStep_admitted anchor acc b hadm, ih]
      by_cases h12 : anchor - b.start ≤ 43200
      · have hadm12 : admitted12 anchor b = true := by
          rw [specAdmitted12_eq_of_admitted24 anchor b hadm]
          simpa using h12
        simp only [List.filter_cons, hadm, hadm12, if_true, List.foldl_cons,
          if_pos h12]
      · have hadm12 : admitted12 anchor b = false := by
          rw [specAdmitted12_eq_of_admitted24 anchor b hadm]
          simpa using h12
        simp only [List.filter_cons, hadm, hadm12, if_true, Bool.false_eq_true,
          if_false, List.foldl_cons, if_neg h12]
    · have hadm24 : admitted24 anchor b = false := by simpa using hadm
      rw [specHourStep_not_admitted anchor acc b hadm24, ih]
      simp only [List.filter_cons, hadm24,
        specAdmitted12_false_of_not24 anchor b hadm24, Bool.false_eq_true, if_false]

theorem specHourStats_eq_spec (anchor : Int) (hs : List Bucket) :
    hourStats anchor hs = hourStatsSpec anchor hs := by
  rw [hourStats, specHourStats_go]
  rfl

theorem derive_anchor_eq (wallNow : Int) (s : Snapshot)
    (h : s.needsRelativeAge = true) :
    derive wallNow s = derive s.updatedAt s := by
  simp [derive, ageAnchor, h]

end SpecDeriver

namespace Store

theorem applyOp_heap_append (limit : Nat) (st : StoreState) (op : WriterOp) :
    ∃ ext, (applyOp limit st op).heap = st.heap ++ ext := by
  cases op with
  | publish name sm => exact ⟨[sm], rfl⟩
  | aggregateTick now => exact ⟨[], by simp [applyOp]⟩
  | trim =>
    refine ⟨[], ?_⟩
    simp only [applyOp]
    split <;> simp

theorem applyOps_heap_append (limit : Nat) (ops : List WriterOp) :
    ∀ st : StoreState, ∃ ext, (applyOps limit st ops).heap = st.heap ++ ext := by
  induction ops with
  | nil => exact fun st => ⟨[], by simp [applyOps]⟩
  | cons op rest ih =>
    intro st
    obtain ⟨e1, h1⟩ := applyOp_heap_append limit st op
    obtain ⟨e2, h2⟩ := ih (applyOp limit st op)
    refine ⟨e1 ++ e2, ?_⟩
    show (applyOps limit (applyOp limit st op) rest).heap = _
    rw [h2, h1, List.append_assoc]

theorem applyOps_append_op (limit : Nat) (st : StoreState) (ops : List WriterOp)
    (op : WriterOp) :
    applyOps limit st (ops ++ [op]) = applyOp limit (applyOps limit st ops) op := by
  simp [applyOps, List.foldl_append]

theorem applyOp_trim_length (limit : Nat) (st : StoreState) :
    (applyOp limit st WriterOp.trim).History.length ≤ limit := by
  simp only [applyOp]
  split
  · rename_i h
    rw [List.length_drop]
    exact le_of_eq (Nat.sub_sub_self (le_of_lt h))
  · rename_i h
    exact Nat.le_of_not_lt h

theorem histTimes_publish (limit : Nat) (st : StoreState) (name : String)
    (sm : Deriver.ServerMetrics) :
    histTimes (applyOp limit st (WriterOp.publish name sm)) = histTimes st := rfl

theorem histTimes_tick (limit : Nat) (st : StoreState) (t : Int) :
    histTimes (applyOp limit st (WriterOp.aggregateTick t)) = histTimes st ++ [t] := by
  simp [applyOp, histTimes]

theorem histTimes_trim_sublist (limit : Nat) (st : StoreState) :
    List.Sublist (histTimes (applyOp limit st WriterOp.trim)) (histTimes st) := by
  simp only [applyOp]
  split
  · simp only [histTimes, List.map_drop]
    exact List.drop_sublist ..
  · exact List.Sublist.refl _

theorem applyOps_pairwise (limit : Nat) (ops : List WriterOp) :
    ∀ st : StoreState,
      List.Pairwise (· ≤ ·) (histTimes st ++ aggTimes ops) →
        List.Pairwise (· ≤ ·) (histTimes (applyOps limit st ops)) := by
  induction ops with
  | nil =>
    intro st h
    simpa [aggTimes] using h
  | cons op rest ih =>
    intro st h
    show List.Pairwise (· ≤ ·) (histTimes (applyOps limit (applyOp limit st op) rest))
    apply ih
    cases op with
    | publish name sm =>
      rw [histTimes_publish]
      simpa [aggTimes] using h
    | aggregateTick t =>
      rw [histTimes_tick]
      rw [List.append_assoc]
      simpa [aggTimes] using h
    | trim =>
      have hsub : List.Sublist
          (histTimes (applyOp limit st WriterOp.trim) ++ aggTimes rest)
          (histTimes st ++ aggTimes (WriterOp.trim :: rest)) := by
        simp only [aggTimes]
        exact (histTimes_trim_sublist limit st).append_right _
      exact h.sublist hsub

theorem exists_append_of_getLast (ops : List WriterOp) (op : WriterOp)
    (h : ops.getLast? = some op) : ∃ pre, ops = pre ++ [op] := by
  rcases List.getLast?_eq_some_iff.mp h with ⟨pre, hpre⟩
  exact ⟨pre, hpre⟩

end Store

/-- C3: for every admissible bucket list, parsing the legacy-object
dialect and parsing the semantically equivalent modern-timestamp dialect
yield the same parsed buckets — all instants and all rx/tx volumes agree;
in particular the legacy id with year 2023, month 10, day 27, hour 14
parses to the same bucket as the modern id 1698415200. -/
theorem C3_dialect_equivalence (bs : List Parser.LegacyDesc)
    (h : ∀ b ∈ bs, Parser.Admissible b) :
    Parser.parseSeries (bs.map Parser.legacyRaw) =
        Parser.parseSeries (bs.map Parser.modernRaw) ∧
      Parser.parseBucket (Parser.JValue.obj
          [("year", Parser.JValue.num 2023), ("month", Parser.JValue.num 10),
           ("day", Parser.JValue.num 27), ("hour", Parser.JValue.num 14)])
          1000 2000 =
        Parser.parseBucket (Parser.JValue.num 1698415200) 1000 2000 :=
  ⟨Parser.parseSeries_legacy_eq_modern bs h, by decide⟩

/-- Witness for C3 at the one-bucket list of scenario S3. -/
theorem C3_dialect_equivalence_witness :
    (∀ b ∈ [Scenarios.c3Desc], Parser.Admissible b) ∧
    (Parser.parseSeries ([Scenarios.c3Desc].map Parser.legacyRaw) =
        Parser.parseSeries ([Scenarios.c3Desc].map Parser.modernRaw) ∧
      Parser.parseBucket (Parser.JValue.obj
          [("year", Parser.JValue.num 2023), ("month", Parser.JValue.num 10),
           ("day", Parser.JValue.num 27), ("hour", Parser.JValue.num 14)])
          1000 2000 =
        Parser.parseBucket (Parser.JValue.num 1698415200) 1000 2000) :=
  ⟨by decide, C3_dialect_equivalence [Scenarios.c3Desc] (by decide)⟩

/-- C5 as stated is false: with host A offline (its poll failed) and
host B online reporting only a live rate of 100 B/s — so B's 24h
averages are zero — the aggregate has totalRx = 100 but dominantServer
is the empty string, not "B": the selection compares with strict
greater-than against an initial maximum of zero, so no online host is
picked when all average sums are zero. -/
theorem C5_aggregation_counterexample :
    Scenarios.hostA.Online = false ∧
    (¬Scenarios.hostA.Error = "") ∧
    Scenarios.hostB.Online = true ∧
    Scenarios.hostB.Rx = 100 ∧
    (Aggregate.updateAggregate [Scenarios.hostA, Scenarios.hostB]).TotalRx = 100 ∧
    (Aggregate.updateAggregate [Scenarios.hostA, Scenarios.hostB]).DominantServer = "" ∧
    ¬(Aggregate.updateAggregate [Scenarios.hostA, Scenarios.hostB]).DominantServer
      = "B" := by
  refine ⟨rfl, by decide, rfl, by decide, by decide, by decide, by decide⟩

/-- C5 (amended): offline hosts contribute nothing to any aggregate
field and are ineligible for dominantServer (the tick equals the tick
over the online hosts alone); dominantServer is the first-encountered
online host attaining the maximal avgRx24h+avgTx24h provided that
maximum is positive, and the empty string otherwise; consequently, with
host A failing every call and host B online with live rx = 100 and
positive 24h averages, the aggregate has totalRx = 100 and
dominantServer = "B". -/
theorem C5_aggregation_amended (l : List Deriver.ServerMetrics) :
    Aggregate.updateAggregate l =
        Aggregate.updateAggregate (Aggregate.onlineHosts l) ∧
      (Aggregate.updateAggregate l).DominantServer = Aggregate.dominantSpec l ∧
      (Aggregate.updateAggregate [Scenarios.hostA, Scenarios.hostBpos]).TotalRx
        = 100 ∧
      (Aggregate.updateAggregate
        [Scenarios.hostA, Scenarios.hostBpos]).DominantServer = "B" :=
  ⟨Aggregate.updateAggregate_online_filter l,
   (Aggregate.updateAggregate_dominant l).2, by decide, by decide⟩

/-- C10: whenever every online host's avgRx24h+avgTx24h equals 0, the
aggregation tick sets dominantServer to the empty string — no host is
selected even when online hosts exist, because the selection uses a
strict greater-than comparison against an initial maximum of zero. -/
theorem C10_dominant_empty_when_all_zero (l : List Deriver.ServerMetrics)
    (h : ∀ m ∈ l, m.Online = true → Aggregate.serverAvg m = 0) :
    (Aggregate.updateAggregate l).DominantServer = "" := by
  have hmax : Aggregate.maxAvg l = 0 := by
    rcases Aggregate.foldl_max_eq_or_mem 0
        ((Aggregate.onlineHosts l).map Aggregate.serverAvg) with h0 | hm
    · exact h0
    · obtain ⟨x, hx, hx2⟩ := List.mem_map.mp hm
      have hxl := List.mem_filter.mp hx
      show ((Aggregate.onlineHosts l).map Aggregate.serverAvg).foldl max 0 = 0
      rw [← hx2]
      exact h x hxl.1 hxl.2
  rw [(Aggregate.updateAggregate_dominant l).2, Aggregate.dominantSpec,
    if_pos hmax]

/-- Witness for C10: host B is online with zero averages, and no
dominant server is selected. -/
theorem C10_dominant_empty_witness :
    (∀ m ∈ [Scenarios.hostB], m.Online = true → Aggregate.serverAvg m = 0) ∧
    Scenarios.hostB.Online = true ∧
    (Aggregate.updateAggregate [Scenarios.hostB]).DominantServer = "" :=
  ⟨by decide, by decide,
   C10_dominant_empty_when_all_zero [Scenarios.hostB] (by decide)⟩

/-- C8 as stated is false: a parse failure is published offline, but the
error string the code builds starts with "failed to parse vnStat
data: ", of which the claimed prefix "failed to parse: " is not a
prefix. -/
theorem C8_parse_prefix_counterexample :
    (Poller.collectMetrics "A" "10.0.0.1" 0
        (Poller.PollOutcome.parseFailure "unexpected end of JSON input")).Online
      = false ∧
    List.isPrefixOf "failed to parse: ".data
        (Poller.collectMetrics "A" "10.0.0.1" 0
          (Poller.PollOutcome.parseFailure
            "unexpected end of JSON input")).Error.data
      = false := by
  refine ⟨rfl, by decide⟩

/-- C8 (amended): whenever a poll's returned bytes fail to parse, the
poller publishes the host offline with an error message that is exactly
"failed to parse vnStat data: " followed by the decoder's message, and
this prefix is added only on the parse path: transport (connect) and
command errors are recorded verbatim, with nothing prepended. -/
theorem C8_error_messages_amended (name ip msg : String) (now : Int) :
    ((Poller.collectMetrics name ip now (Poller.PollOutcome.parseFailure msg)).Error
        = "failed to parse vnStat data: " ++ msg ∧
      (Poller.collectMetrics name ip now
        (Poller.PollOutcome.parseFailure msg)).Online = false) ∧
    ((Poller.collectMetrics name ip now (Poller.PollOutcome.connectFailure msg)).Error
        = msg ∧
      (Poller.collectMetrics name ip now
        (Poller.PollOutcome.connectFailure msg)).Online = false) ∧
    ((Poller.collectMetrics name ip now (Poller.PollOutcome.commandFailure msg)).Error
        = msg ∧
      (Poller.collectMetrics name ip now
        (Poller.PollOutcome.commandFailure msg)).Online = false) :=
  ⟨⟨rfl, rfl⟩, ⟨rfl, rfl⟩, ⟨rfl, rfl⟩⟩

/-- C6: for a snapshot whose day series has a strictly latest bucket,
`processVnStatData` reports that bucket's volumes as today's totals,
regardless of the order the day buckets arrive in (the hypotheses do not
constrain the position of the latest bucket in the list). -/
theorem C6_today_totals (name ip : String) (now : Int)
    (iface : Deriver.Interface) (rest : List Deriver.Interface)
    (b : Deriver.TrafficBucket) (hb : b ∈ iface.Day)
    (hmax : ∀ c ∈ iface.Day, c ≠ b → c.Timestamp < b.Timestamp) :
    (Deriver.processVnStatData name ip now (iface :: rest)).TotalRx = b.Rx ∧
      (Deriver.processVnStatData name ip now (iface :: rest)).TotalTx = b.Tx := by
  have h := Deriver.getLast?_sortByTs_max iface.Day b hb hmax
  constructor <;> simp [Deriver.processVnStatData, Deriver.dayTotals, h]

/-- Witness for C6: a day series arriving out of order, whose latest
bucket sits in the middle. -/
theorem C6_today_totals_witness :
    (({ Timestamp := 1697086400, Rx := 500, Tx := 600 } : Deriver.TrafficBucket)
        ∈ Scenarios.c6Iface.Day ∧
      (∀ c ∈ Scenarios.c6Iface.Day,
        c ≠ ({ Timestamp := 1697086400, Rx := 500, Tx := 600 } :
            Deriver.TrafficBucket) →
          c.Timestamp < 1697086400)) ∧
    ((Deriver.processVnStatData "B" "10.0.0.2" 1697090000
        [Scenarios.c6Iface]).TotalRx = 500 ∧
      (Deriver.processVnStatData "B" "10.0.0.2" 1697090000
        [Scenarios.c6Iface]).TotalTx = 600) :=
  ⟨⟨by decide, by decide⟩,
   C6_today_totals "B" "10.0.0.2" 1697090000 Scenarios.c6Iface []
     { Timestamp := 1697086400, Rx := 500, Tx := 600 } (by decide) (by decide)⟩

/-- C7: the 12h and 24h averages equal the admitted sums divided by
(count times 3600) with integer truncation and are zero when the count
is zero; concretely, for scenario S2's hour series of 25 admitted
buckets (24 with rx=3600, tx=7200 and one at age 2h with rx=36000,
tx=72000) the deriver produces peakRx=10, peakTx=20, and avgRx24h=1. -/
theorem C7_average_formula :
    (∀ (name ip : String) (now : Int) (iface : Deriver.Interface)
        (rest : List Deriver.Interface),
      (Deriver.processVnStatData name ip now (iface :: rest)).AvgRx24h =
        (if 0 < (Deriver.hourStatsSpec now iface.Hour).count24
         then (Deriver.hourStatsSpec now iface.Hour).sumRx24 /
           u64mul (Deriver.hourStatsSpec now iface.Hour).count24 3600
         else 0) ∧
      (Deriver.processVnStatData name ip now (iface :: rest)).AvgTx24h =
        (if 0 < (Deriver.hourStatsSpec now iface.Hour).count24
         then (Deriver.hourStatsSpec now iface.Hour).sumTx24 /
           u64mul (Deriver.hourStatsSpec now iface.Hour).count24 3600
         else 0) ∧
      (Deriver.processVnStatData name ip now (iface :: rest)).AvgRx12h =
        (if 0 < (Deriver.hourStatsSpec now iface.Hour).count12
         then (Deriver.hourStatsSpec now iface.Hour).sumRx12 /
           u64mul (Deriver.hourStatsSpec now iface.Hour).count12 3600
         else 0) ∧
      (Deriver.processVnStatData name ip now (iface :: rest)).AvgTx12h =
        (if 0 < (Deriver.hourStatsSpec now iface.Hour).count12
         then (Deriver.hourStatsSpec now iface.Hour).sumTx12 /
           u64mul (Deriver.hourStatsSpec now iface.Hour).count12 3600
         else 0)) ∧
    ((Deriver.processVnStatData "S" "10.0.0.3" 1000000
        [Scenarios.c7Iface]).PeakRx = 10 ∧
      (Deriver.processVnStatData "S" "10.0.0.3" 1000000
        [Scenarios.c7Iface]).PeakTx = 20 ∧
      (Deriver.processVnStatData "S" "10.0.0.3" 1000000
        [Scenarios.c7Iface]).AvgRx24h = 1) := by
  constructor
  · intro name ip now iface rest
    refine ⟨?_, ?_, ?_, ?_⟩ <;>
      simp [Deriver.processVnStatData, Deriver.hourStats_eq_spec]
  · refine ⟨by decide, by decide, by decide⟩

namespace SpecDeriver

theorem hourStats_append_not_admitted (anchor : Int) (hs : List Bucket)
    (b : Bucket) (h : admitted24 anchor b = false) :
    hourStats anchor (hs ++ [b]) = hourStats anchor hs := by
  rw [hourStats, hourStats, List.foldl_append]
  simp [specHourStep_not_admitted anchor _ b h]

end SpecDeriver

/-- C2: for every snapshot and wall clock, the current deriver's hour
statistics coincide with the explicit-filter formulation: a bucket feeds
the 24h sums, the 24h count and the peak computation iff its age against
the anchor satisfies -1h < age <= 24h, and additionally feeds the 12h
sums and count iff also age <= 12h; the derived peaks and averages read
those statistics, and appending a bucket outside (-1h, 24h] changes
nothing. -/
theorem C2_window_admission (wallNow : Int) (s : SpecDeriver.Snapshot)
    (b : SpecDeriver.Bucket) :
    SpecDeriver.hourStats (SpecDeriver.ageAnchor wallNow s) s.hour =
        SpecDeriver.hourStatsSpec (SpecDeriver.ageAnchor wallNow s) s.hour ∧
      (SpecDeriver.derive wallNow s).PeakRx =
        (SpecDeriver.hourStatsSpec (SpecDeriver.ageAnchor wallNow s) s.hour).peakRx ∧
      (SpecDeriver.derive wallNow s).PeakTx =
        (SpecDeriver.hourStatsSpec (SpecDeriver.ageAnchor wallNow s) s.hour).peakTx ∧
      (SpecDeriver.derive wallNow s).AvgRx24h =
        (if 0 < (SpecDeriver.hourStatsSpec (SpecDeriver.ageAnchor wallNow s)
            s.hour).count24
         then (SpecDeriver.hourStatsSpec (SpecDeriver.ageAnchor wallNow s)
             s.hour).sumRx24 /
           u64mul (SpecDeriver.hourStatsSpec (SpecDeriver.ageAnchor wallNow s)
             s.hour).count24 3600
         else 0) ∧
      (SpecDeriver.derive wallNow s).AvgRx12h =
        (if 0 < (SpecDeriver.hourStatsSpec (SpecDeriver.ageAnchor wallNow s)
            s.hour).count12
         then (SpecDeriver.hourStatsSpec (SpecDeriver.ageAnchor wallNow s)
             s.hour).sumRx12 /
           u64mul (SpecDeriver.hourStatsSpec (SpecDeriver.ageAnchor wallNow s)
             s.hour).count12 3600
         else 0) ∧
      (SpecDeriver.admitted24 (SpecDeriver.ageAnchor wallNow s) b = false →
        SpecDeriver.hourStats (SpecDeriver.ageAnchor wallNow s) (s.hour ++ [b]) =
          SpecDeriver.hourStats (SpecDeriver.ageAnchor wallNow s) s.hour) := by
  refine ⟨SpecDeriver.specHourStats_eq_spec _ _, ?_, ?_, ?_, ?_,
    SpecDeriver.hourStats_append_not_admitted _ _ _⟩ <;>
    simp [SpecDeriver.derive, SpecDeriver.specHourStats_eq_spec]

/-- Witness for C2: appending a bucket aged 90800 s (outside the 24h
window) to the legacy scenario's hour series leaves the statistics
unchanged. -/
theorem C2_window_admission_witness :
    SpecDeriver.admitted24
        (SpecDeriver.ageAnchor 0 (SpecDeriver.legacyScenario 10800))
        Scenarios.staleBucket = false ∧
    SpecDeriver.hourStats
        (SpecDeriver.ageAnchor 0 (SpecDeriver.legacyScenario 10800))
        ((SpecDeriver.legacyScenario 10800).hour ++ [Scenarios.staleBucket]) =
      SpecDeriver.hourStats
        (SpecDeriver.ageAnchor 0 (SpecDeriver.legacyScenario 10800))
        (SpecDeriver.legacyScenario 10800).hour :=
  ⟨by decide,
   (C2_window_admission 0 (SpecDeriver.legacyScenario 10800)
     Scenarios.staleBucket).2.2.2.2.2 (by decide)⟩

/-- C1: whenever a snapshot carries any legacy id (needsRelativeAge),
the current deriver computes every hour bucket's age as the snapshot's
host-reported updatedAt minus the bucket start — its output is
independent of the monitor's wall clock and equals the derivation
anchored at updatedAt; consequently the legacy-dialect snapshot whose
updated envelope and bucket ids sit 3 hours ahead of the monitor's wall
clock (updatedAt 10800 against monitor wall clock 0) derives a non-zero
live rate and a non-zero avgRx24h — at wall clock 0 and, by the first
conjunct, at every other wall clock reading as well. -/
theorem C1_adaptive_age (wallNow otherNow : Int) (s : SpecDeriver.Snapshot)
    (h : s.needsRelativeAge = true) :
    SpecDeriver.derive wallNow s = SpecDeriver.derive otherNow s ∧
      SpecDeriver.derive wallNow s = SpecDeriver.derive s.updatedAt s ∧
      0 < (SpecDeriver.derive wallNow (SpecDeriver.legacyScenario 10800)).Rx ∧
      0 < (SpecDeriver.derive wallNow
        (SpecDeriver.legacyScenario 10800)).AvgRx24h := by
  refine ⟨?_, SpecDeriver.derive_anchor_eq wallNow s h, ?_, ?_⟩
  · rw [SpecDeriver.derive_anchor_eq wallNow s h,
      SpecDeriver.derive_anchor_eq otherNow s h]
  · rw [SpecDeriver.derive_anchor_eq wallNow
      (SpecDeriver.legacyScenario 10800) rfl]
    decide
  · rw [SpecDeriver.derive_anchor_eq wallNow
      (SpecDeriver.legacyScenario 10800) rfl]
    decide

/-- Witness for C1 at wall clock 0 against the 3h-ahead legacy
scenario. -/
theorem C1_adaptive_age_witness :
    (SpecDeriver.legacyScenario 10800).needsRelativeAge = true ∧
    (SpecDeriver.derive 0 (SpecDeriver.legacyScenario 10800) =
        SpecDeriver.derive 999 (SpecDeriver.legacyScenario 10800) ∧
      SpecDeriver.derive 0 (SpecDeriver.legacyScenario 10800) =
        SpecDeriver.derive (SpecDeriver.legacyScenario 10800).updatedAt
          (SpecDeriver.legacyScenario 10800) ∧
      0 < (SpecDeriver.derive 0 (SpecDeriver.legacyScenario 10800)).Rx ∧
      0 < (SpecDeriver.derive 0
        (SpecDeriver.legacyScenario 10800)).AvgRx24h) :=
  ⟨rfl, C1_adaptive_age 0 999 (SpecDeriver.legacyScenario 10800) rfl⟩

/-- C4 as stated is false: with pollInterval = 5 minutes the history
limit is 1, yet after the prefix tick-trim-tick — an interleaving the
monitor actually produces, since the trimmer runs only once a minute —
the history holds 2 entries, exceeding the limit. -/
theorem C4_history_counterexample :
    Store.historyLimit 300000000000 = 1 ∧
      (Store.applyOps (Store.historyLimit 300000000000) Store.initState
          [Store.WriterOp.aggregateTick 5, Store.WriterOp.trim,
           Store.WriterOp.aggregateTick 300]).History.length = 2 ∧
      ¬((Store.applyOps (Store.historyLimit 300000000000) Store.initState
          [Store.WriterOp.aggregateTick 5, Store.WriterOp.trim,
           Store.WriterOp.aggregateTick 300]).History.length
        ≤ Store.historyLimit 300000000000) := by
  refine ⟨by decide, by decide, by decide⟩

/-- C4 (amended): when the aggregate ticks carry non-decreasing clock
readings, after every prefix of writer operations the history timestamps
are in non-decreasing order; and the length bound
len(history) <= historyLimit holds after every prefix that ends with a
history-trimmer run (between trims the aggregator's appends may exceed
the limit, as the counterexample shows). -/
theorem C4_history_amended (pollIntervalNs : Nat) (ops : List Store.WriterOp)
    (hclock : List.Pairwise (· ≤ ·) (Store.aggTimes ops)) :
    List.Pairwise (· ≤ ·) (Store.histTimes
        (Store.applyOps (Store.historyLimit pollIntervalNs) Store.initState ops)) ∧
      (ops.getLast? = some Store.WriterOp.trim →
        (Store.applyOps (Store.historyLimit pollIntervalNs) Store.initState
            ops).History.length ≤ Store.historyLimit pollIntervalNs) := by
  constructor
  · apply Store.applyOps_pairwise
    simpa [Store.histTimes, Store.initState] using hclock
  · intro hlast
    obtain ⟨pre, hpre⟩ := Store.exists_append_of_getLast ops _ hlast
    rw [hpre, Store.applyOps_append_op]
    exact Store.applyOp_trim_length _ _

/-- Witness for C4 (amended) at pollInterval = 5 s (limit 60), two ticks
then a trim. -/
theorem C4_history_amended_witness :
    List.Pairwise (· ≤ ·) (Store.aggTimes
        [Store.WriterOp.aggregateTick 1, Store.WriterOp.aggregateTick 2,
         Store.WriterOp.trim]) ∧
    List.Pairwise (· ≤ ·) (Store.histTimes
        (Store.applyOps (Store.historyLimit 5000000000) Store.initState
          [Store.WriterOp.aggregateTick 1, Store.WriterOp.aggregateTick 2,
           Store.WriterOp.trim])) ∧
    (Store.applyOps (Store.historyLimit 5000000000) Store.initState
        [Store.WriterOp.aggregateTick 1, Store.WriterOp.aggregateTick 2,
         Store.WriterOp.trim]).History.length ≤ Store.historyLimit 5000000000 :=
  ⟨by decide,
   (C4_history_amended 5000000000
     [Store.WriterOp.aggregateTick 1, Store.WriterOp.aggregateTick 2,
      Store.WriterOp.trim] (by decide)).1,
   (C4_history_amended 5000000000
     [Store.WriterOp.aggregateTick 1, Store.WriterOp.aggregateTick 2,
      Store.WriterOp.trim] (by decide)).2 (by decide)⟩

/-- C9: a snapshot returned by GetMetrics is unaffected by subsequent
writer activity — for every well-formed store and every sequence of
publishes, aggregate ticks and trims, dereferencing the snapshot's
scalar fields, map entries (shared record pointers) and history entries
against the mutated store's heap yields exactly what it yielded at read
time, because publishes only allocate fresh records and never write
through stored pointers. -/
theorem C9_snapshot_immutable (limit : Nat) (st : Store.StoreState)
    (ops : List Store.WriterOp) (hwf : Store.WF st) :
    Store.readSnapshot (Store.applyOps limit st ops).heap
        (Store.getMetrics st) =
      Store.readSnapshot st.heap (Store.getMetrics st) := by
  obtain ⟨ext, hext⟩ := Store.applyOps_heap_append limit ops st
  rw [hext]
  simp only [Store.readSnapshot, Store.getMetrics]
  congr 1
  apply List.map_congr_left
  intro p hp
  rw [List.getElem?_append_left (hwf p hp)]

/-- Witness for C9: a store holding host B's record, hit by a publish,
an aggregate tick and a trim. -/
theorem C9_snapshot_immutable_witness :
    Store.WF Scenarios.storeSt ∧
    Store.readSnapshot (Store.applyOps 1 Scenarios.storeSt
          Scenarios.storeOps).heap
        (Store.getMetrics Scenarios.storeSt) =
      Store.readSnapshot Scenarios.storeSt.heap
        (Store.getMetrics Scenarios.storeSt) :=
  ⟨by decide,
   C9_snapshot_immutable 1 Scenarios.storeSt Scenarios.storeOps (by decide)⟩
